import Mathlib

/-!
# Verification of the clinician assignment-scoring pipeline

Shallow embedding of the scoring core of the `assign-to-swee` repository:
the feature extractor (`assignmentMetrics`), the burnout detector
(`burnoutDetection.js`), the cohort-relative load-balancing detector
(`loadBalancingProtection`), and the score composer (`scoring.js`).

Modelling conventions:

* JavaScript numbers are modelled as exact rationals (`ℚ`).  All arithmetic
  in the embedded code paths stays within `ℚ`; the one square root in the
  sources (`stdDev = Math.sqrt(variance)` in the load-balancing detector)
  is eliminated by embedding the comparison `h ≥ mean + 1.5·√variance` as
  the equivalent rational condition `mean ≤ h ∧ (3/2)²·variance ≤ (h-mean)²`
  (valid because `variance ≥ 0`), and the guard `stdDev === 0` as
  `variance = 0`.
* `Math.round x` is `⌊x + 1/2⌋` (round half toward +∞), and
  `Number(x.toFixed(1))` is `⌊10·x + 1/2⌋ / 10`, both following the
  ECMAScript definitions.
* Array indices are integers; `safeArrayAccess` (from `dataValidation.js`)
  returns its default `0` for any out-of-range index, as in the source.
* A record whose `monthlyHours2025` is not an array is modelled by
  `Option.none`; a well-formed array by `Option.some`.
* The ambient current date (`getCurrentMonthIndex`, day-of-month) is
  threaded as explicit arguments `currentMonthIndex` / `isEarlyInMonth`,
  matching the injected-reference-month reading of the design notes.
-/

namespace AssignToSwee

/-! ## JavaScript numeric primitives -/

/-- `Math.round`: round half toward positive infinity. -/
def jsRound (q : ℚ) : ℤ := ⌊q + 1/2⌋

/-- `Number(x.toFixed(1))`: round to one decimal place, ties toward +∞. -/
def toFixed1 (q : ℚ) : ℚ := (jsRound (q * 10) : ℚ) / 10

/-- `safeArrayAccess(array, index, 0)` from `dataValidation.js`: the element
at `index`, or the default `0` when the index is out of range. -/
def safeArrayAccess (l : List ℚ) (i : ℤ) : ℚ :=
  if i < 0 then 0 else l.getD i.toNat 0

/-- `safeAverage(values)` from `dataValidation.js`: mean of the
valid (`≥ 0`) entries, `0` on an empty array or when no entry is valid. -/
def safeAverage (values : List ℚ) : ℚ :=
  if values.isEmpty then 0
  else
    let validValues := values.filter (fun v => 0 ≤ v)
    if validValues.isEmpty then 0
    else validValues.sum / (validValues.length : ℚ)

/-! ## Score composer (`scoring.js`, lines 73–114) -/

/-- Detection result of `detectBurnout` (`burnoutDetection.js`). -/
structure BurnoutResult where
  consecutiveHighMonths : ℕ
  burnoutLevel : String
  penalty : ℚ
  threshold : ℚ
deriving DecidableEq, Repr

/-- Detection result of `detectLoadBalancing`. -/
structure LBResult where
  consecutiveHighLoadMonths : ℕ
  protectionLevel : String
  penalty : ℚ
deriving DecidableEq, Repr

/-- The fields of a clinician record read by `calculateAssignmentScore`.
The `burnout` / `loadBalancing` fields are `Option`s because the function
tests their presence (`clinician.burnout ? … : 0`). -/
structure ScoreRecord where
  activeCases : ℚ
  currentMonth : ℚ
  sixMonthAverage : ℚ
  growthRate : ℚ
  burnout : Option BurnoutResult
  loadBalancing : Option LBResult
deriving DecidableEq, Repr

/-- `Math.max(...values, 1)`: maximum of a list of values and `1`. -/
def maxOr1 (l : List ℚ) : ℚ := l.foldr max 1

/-- `Math.max(...values)` for the growth rates; `Math.max()` of an empty
spread is `-Infinity`, which together with `Math.min() = +Infinity` makes
the range test `growthRateRange > 0` fail — we return `0` for the empty
list, which produces the same branch outcome. -/
def listMax : List ℚ → ℚ
  | [] => 0
  | x :: xs => xs.foldr max x

/-- `Math.min(...values)`; `0` on the empty list (see `listMax`). -/
def listMin : List ℚ → ℚ
  | [] => 0
  | x :: xs => xs.foldr min x

/-- `maxActiveCases` in `calculateAssignmentScore`: the supplied
`baselineMaxActiveCases` when one is given, otherwise
`Math.max(...allClinicians.map(c => c.activeCases), 1)`. -/
def maxActiveCasesOf (all : List ScoreRecord) (baselineMaxActiveCases : Option ℚ) : ℚ :=
  match baselineMaxActiveCases with
  | some b => b
  | none => maxOr1 (all.map (·.activeCases))

/-- `normalizedActiveCases = clinician.activeCases / maxActiveCases`. -/
def normalizedActiveCases (clinician : ScoreRecord) (all : List ScoreRecord)
    (baselineMaxActiveCases : Option ℚ) : ℚ :=
  clinician.activeCases / maxActiveCasesOf all baselineMaxActiveCases

/-- `normalizedCurrentMonth = clinician.currentMonth / maxCurrentMonth`. -/
def normalizedCurrentMonth (clinician : ScoreRecord) (all : List ScoreRecord) : ℚ :=
  clinician.currentMonth / maxOr1 (all.map (·.currentMonth))

/-- `normalizedSixMonthAvg = clinician.sixMonthAverage / maxSixMonthAvg`. -/
def normalizedSixMonthAvg (clinician : ScoreRecord) (all : List ScoreRecord) : ℚ :=
  clinician.sixMonthAverage / maxOr1 (all.map (·.sixMonthAverage))

/-- `growthRateRange = maxGrowthRate - minGrowthRate`. -/
def growthRateRange (all : List ScoreRecord) : ℚ :=
  listMax (all.map (·.growthRate)) - listMin (all.map (·.growthRate))

/-- `normalizedGrowthRate`: min–max normalization over the cohort, `0`
when the range test `growthRateRange > 0` fails. -/
def normalizedGrowthRate (clinician : ScoreRecord) (all : List ScoreRecord) : ℚ :=
  if 0 < growthRateRange all then
    (clinician.growthRate - listMin (all.map (·.growthRate))) / growthRateRange all
  else 0

/-- `baseScore`: the weighted sum of the four normalized features,
scaled by 100 (weights 0.30 / 0.30 / 0.30 / 0.10). -/
def baseScore (clinician : ScoreRecord) (all : List ScoreRecord)
    (baselineMaxActiveCases : Option ℚ) : ℚ :=
  (normalizedActiveCases clinician all baselineMaxActiveCases * 0.30 +
   normalizedCurrentMonth clinician all * 0.30 +
   normalizedSixMonthAvg clinician all * 0.30 +
   normalizedGrowthRate clinician all * 0.10) * 100

/-- `clinician.burnout ? clinician.burnout.penalty : 0`. -/
def burnoutPenaltyOf (clinician : ScoreRecord) : ℚ :=
  match clinician.burnout with
  | some b => b.penalty
  | none => 0

/-- `clinician.loadBalancing ? clinician.loadBalancing.penalty : 0`. -/
def loadBalancingPenaltyOf (clinician : ScoreRecord) : ℚ :=
  match clinician.loadBalancing with
  | some lb => lb.penalty
  | none => 0

/-- `calculateAssignmentScore(clinician, allClinicians, baselineMaxActiveCases)`
(`scoring.js`, lines 73–114): `Math.round(Math.min(finalScore, 100))` where
`finalScore = baseScore + burnoutPenalty + loadBalancingPenalty`. -/
def calculateAssignmentScore (clinician : ScoreRecord) (all : List ScoreRecord)
    (baselineMaxActiveCases : Option ℚ) : ℤ :=
  jsRound (min (baseScore clinician all baselineMaxActiveCases +
    burnoutPenaltyOf clinician + loadBalancingPenaltyOf clinician) 100)

/-! ## Burnout detector (`burnoutDetection.js`, lines 14–83) -/

/-- The tier ladder at the end of `detectBurnout`:
run length → (`burnoutLevel`, `penalty`). -/
def burnoutTier (consecutiveCount : ℕ) : String × ℚ :=
  if 4 ≤ consecutiveCount then ("severe", 15)
  else if consecutiveCount = 3 then ("warning", 10)
  else if consecutiveCount = 2 then ("caution", 3)
  else ("none", 0)

/-- The backward scan of `detectBurnout`: starting at month index `n - 1`
and walking down to `0`, count consecutive months with
`hours ≥ highLoadThreshold`, stopping at the first month below it.
`burnoutScan l thr (c+1)` is the count the `for` loop produces from
month `c`. -/
def burnoutScan (l : List ℚ) (highLoadThreshold : ℚ) : ℕ → ℕ
  | 0 => 0
  | n + 1 =>
    if highLoadThreshold ≤ l.getD n 0 then burnoutScan l highLoadThreshold n + 1
    else 0

/-- The all-zero result returned by every early exit of `detectBurnout`. -/
def burnoutNone : BurnoutResult := ⟨0, "none", 0, 0⟩

/-- `detectBurnout(monthlyHours, currentMonthIndex)`
(`burnoutDetection.js`, lines 14–83).  The `currentMonthIndex < 0` half of
the range guard is vacuous for a natural-number index. -/
def detectBurnout (monthlyHours : List ℚ) (currentMonthIndex : ℕ) : BurnoutResult :=
  if monthlyHours.length ≤ currentMonthIndex then burnoutNone
  else if currentMonthIndex < 2 then burnoutNone
  else
    let safeEndIndex := min (currentMonthIndex + 1) monthlyHours.length
    let monthsToCheck := monthlyHours.take safeEndIndex
    let validMonths := monthsToCheck.filter (fun h => 0 < h)
    if validMonths.isEmpty then burnoutNone
    else
      let average := safeAverage validMonths
      if average = 0 then burnoutNone
      else
        let highLoadThreshold := min (average * 1.25) 45
        let consecutiveCount := burnoutScan monthlyHours highLoadThreshold (currentMonthIndex + 1)
        { consecutiveHighMonths := consecutiveCount
          burnoutLevel := (burnoutTier consecutiveCount).1
          penalty := (burnoutTier consecutiveCount).2
          threshold := (jsRound (highLoadThreshold * 10) : ℚ) / 10 }

/-! ## Load-balancing detector

The guarded `detectLoadBalancing` (the snapshot with the `MIN_POPULATION`
and zero-variance guards, bundled in the repository next to `dateUtils.js`,
lines 211–304).  The cohort argument is passed as the list of each
clinician's `monthlyHours2025` field, the only field the function reads
(`none` standing for a record whose hours are not an array, mapped to `0`
by the per-month collection). -/

/-- `calculateStats(values)`: population mean and variance of the positive
entries.  The source computes `stdDev = Math.sqrt(variance)`; we keep the
variance, which determines every comparison the caller makes. -/
def calculateStats (values : List ℚ) : ℚ × ℚ :=
  let validValues := values.filter (fun v => 0 < v)
  if validValues.isEmpty then (0, 0)
  else
    let mean := validValues.sum / (validValues.length : ℚ)
    let variance := (validValues.map (fun v => (v - mean) ^ 2)).sum / (validValues.length : ℚ)
    (mean, variance)

/-- The per-month cross-population sample: every cohort member's hours at
`monthIdx` (0 for a record without an hours array, `safeArrayAccess` with
default 0 otherwise), restricted to positive values. -/
def monthPopulation (allClinicians : List (Option (List ℚ))) (monthIdx : ℕ) : List ℚ :=
  (allClinicians.map (fun o =>
    match o with
    | none => 0
    | some hs => hs.getD monthIdx 0)).filter (fun h => 0 < h)

/-- `thisClinicianHours >= mean + 1.5·stdDev`, embedded rationally:
with `stdDev = √variance` and `variance ≥ 0`, the comparison is equivalent
to `mean ≤ h ∧ (3/2)² · variance ≤ (h - mean)²`. -/
def lbAboveThreshold (h mean variance : ℚ) : Prop :=
  mean ≤ h ∧ (3/2) ^ 2 * variance ≤ (h - mean) ^ 2

instance (h mean variance : ℚ) : Decidable (lbAboveThreshold h mean variance) := by
  unfold lbAboveThreshold; infer_instance

/-- The backward scan of `detectLoadBalancing`: `lbScan l cohort (c+1)` is
the count produced by the `for` loop from month `c` down.  A month with a
population of fewer than 3 positive entries, or with zero variance, stops
the scan without being counted, as does the first month where this
clinician is not a positive outlier. -/
def lbScan (monthlyHours : List ℚ) (allClinicians : List (Option (List ℚ))) : ℕ → ℕ
  | 0 => 0
  | n + 1 =>
    let monthlyHoursForAll := monthPopulation allClinicians n
    if monthlyHoursForAll.length < 3 then 0
    else
      let stats := calculateStats monthlyHoursForAll
      if stats.2 = 0 then 0
      else
        let thisClinicianHours := monthlyHours.getD n 0
        if 0 < thisClinicianHours ∧ lbAboveThreshold thisClinicianHours stats.1 stats.2 then
          lbScan monthlyHours allClinicians n + 1
        else 0

/-- The tier ladder at the end of `detectLoadBalancing`. -/
def lbTier (consecutiveCount : ℕ) : String × ℚ :=
  if 4 ≤ consecutiveCount then ("high", 10)
  else if consecutiveCount = 3 then ("moderate", 6)
  else if consecutiveCount = 2 then ("low", 3)
  else ("none", 0)

/-- The all-zero result returned by every early exit of
`detectLoadBalancing`. -/
def lbNone : LBResult := ⟨0, "none", 0⟩

/-- `detectLoadBalancing(monthlyHours, allClinicians, currentMonthIndex)`
(the guarded snapshot, `dateUtils.js` document 2, lines 211–304). -/
def detectLoadBalancing (monthlyHours : Option (List ℚ))
    (allClinicians : List (Option (List ℚ))) (currentMonthIndex : ℕ) : LBResult :=
  match monthlyHours with
  | none => lbNone
  | some l =>
    if l.length ≤ currentMonthIndex then lbNone
    else if currentMonthIndex < 1 then lbNone
    else
      let consecutiveCount := lbScan l allClinicians (currentMonthIndex + 1)
      { consecutiveHighLoadMonths := consecutiveCount
        protectionLevel := (lbTier consecutiveCount).1
        penalty := (lbTier consecutiveCount).2 }

/-! ## Feature extractor (`assignmentMetrics`, `src/unnamed/part_006`) -/

/-- Raw input record, as delivered by the data-loading collaborator.
`monthlyHours2025 = none` models a record whose hours field is not an
array. -/
structure Clinician where
  name : String
  level : String
  activeCases : ℚ
  monthlyHours2025 : Option (List ℚ)
deriving DecidableEq, Repr

/-- Output of the first enrichment pass: the input record plus the derived
features and the burnout detection result. -/
structure EnrichedClinician where
  name : String
  level : String
  activeCases : ℚ
  monthlyHours2025 : Option (List ℚ)
  currentMonth : ℚ
  sixMonthAverage : ℚ
  growthRate : ℚ
  burnout : BurnoutResult
  usingPreviousMonthFallback : Bool
deriving DecidableEq, Repr

/-- Output of the second enrichment pass: the enriched record plus the
load-balancing detection result. -/
structure ScoredClinician extends EnrichedClinician where
  loadBalancing : LBResult
deriving DecidableEq, Repr

/-- `calculate6MonthAverage(monthlyHours)` (`part_006`, lines 23–42), with
the ambient `getLastNMonthsIndices(6)` made explicit: the window is
`[max(0, c-5), c]` for the actual current month index `c`.  Natural-number
subtraction realizes the `Math.max(0, ·)` clamp. -/
def calculate6MonthAverage (monthlyHours : List ℚ) (currentIndex : ℕ) : ℚ :=
  let startIndex := currentIndex - 5
  let endIndex := currentIndex + 1
  let safeEndIndex := min endIndex monthlyHours.length
  let safeStartIndex := min startIndex monthlyHours.length
  if safeEndIndex ≤ safeStartIndex then 0
  else safeAverage ((monthlyHours.drop safeStartIndex).take (safeEndIndex - safeStartIndex))

/-- `calculateGrowthRate(monthlyHours, currentMonthIndex, effectiveMonthIndex)`
(`part_006`, lines 53–96).  Indices are integers because the fallback can
pass `currentMonthIndex - 1 = -1` in January. -/
def calculateGrowthRate (monthlyHours : List ℚ) (currentMonthIndex : ℤ)
    (effectiveMonthIndex : Option ℤ) : ℚ :=
  let monthIndexToUse := effectiveMonthIndex.getD currentMonthIndex
  let currentMonth := safeArrayAccess monthlyHours monthIndexToUse
  let historicalStartIndex := max 0 (monthIndexToUse - 6)
  let historicalEndIndex := monthIndexToUse
  let safeEndIndex := min historicalEndIndex (monthlyHours.length : ℤ)
  let safeStartIndex := min historicalStartIndex (monthlyHours.length : ℤ)
  if safeEndIndex ≤ safeStartIndex then
    if 0 < currentMonth then 100 else 0
  else
    let historicalMonths :=
      (monthlyHours.drop safeStartIndex.toNat).take (safeEndIndex - safeStartIndex).toNat
    let historicalAvg := safeAverage historicalMonths
    if historicalAvg = 0 then
      if 0 < currentMonth then 100 else 0
    else ((currentMonth - historicalAvg) / historicalAvg) * 100

/-- The neutral burnout value `{ burnoutLevel: 'none', consecutiveMonths: 0,
penalty: 0 }` emitted on the per-record failure path of
`enrichWithAssignmentMetrics`. -/
def neutralBurnout : BurnoutResult := ⟨0, "none", 0, 0⟩

/-- The body of the first `map` of `enrichWithAssignmentMetrics`
(`part_006`, lines 114–185): derive `currentMonth` (with the early-month
fallback), `sixMonthAverage`, `growthRate` and the burnout result for one
clinician.  A record without an hours array takes the explicit
neutral-fields branch. -/
def enrichClinician (currentMonthIndex : ℕ) (isEarlyInMonth : Bool)
    (clinician : Clinician) : EnrichedClinician :=
  match clinician.monthlyHours2025 with
  | none =>
    { name := clinician.name, level := clinician.level
      activeCases := clinician.activeCases, monthlyHours2025 := none
      currentMonth := 0, sixMonthAverage := 0, growthRate := 0
      burnout := neutralBurnout, usingPreviousMonthFallback := false }
  | some monthlyHours =>
    let currentMonthRaw := safeArrayAccess monthlyHours currentMonthIndex
    let isCurrentMonthEmpty := currentMonthRaw < 5
    let useFallback := isEarlyInMonth = true ∧ isCurrentMonthEmpty
    let currentMonth :=
      if useFallback then safeArrayAccess monthlyHours ((currentMonthIndex : ℤ) - 1)
      else currentMonthRaw
    let sixMonthAvg := calculate6MonthAverage monthlyHours currentMonthIndex
    let effectiveMonthIndex : ℤ :=
      if useFallback then (currentMonthIndex : ℤ) - 1 else (currentMonthIndex : ℤ)
    let growthRate := calculateGrowthRate monthlyHours currentMonthIndex (some effectiveMonthIndex)
    let burnoutInfo := detectBurnout monthlyHours currentMonthIndex
    { name := clinician.name, level := clinician.level
      activeCases := clinician.activeCases, monthlyHours2025 := some monthlyHours
      currentMonth := toFixed1 currentMonth
      sixMonthAverage := toFixed1 sixMonthAvg
      growthRate := toFixed1 growthRate
      burnout := burnoutInfo
      usingPreviousMonthFallback := decide useFallback }

/-- The body of the second `map` of `enrichWithAssignmentMetrics`
(`part_006`, lines 188–207): attach the load-balancing result computed
against the full enriched cohort. -/
def attachLoadBalancing (enrichedData : List EnrichedClinician)
    (currentMonthIndex : ℕ) (clinician : EnrichedClinician) : ScoredClinician :=
  { toEnrichedClinician := clinician
    loadBalancing :=
      detectLoadBalancing clinician.monthlyHours2025
        (enrichedData.map (·.monthlyHours2025)) currentMonthIndex }

/-- `enrichWithAssignmentMetrics(cliniciansData)` (`part_006`, lines
101–208), with the ambient current month index and the day-of-month test
`dayOfMonth <= 7` threaded as the arguments `currentMonthIndex` and
`isEarlyInMonth`. -/
def enrichWithAssignmentMetrics (cliniciansData : List Clinician)
    (currentMonthIndex : ℕ) (isEarlyInMonth : Bool) : List ScoredClinician :=
  if cliniciansData.isEmpty then []
  else
    let enrichedData := cliniciansData.map (enrichClinician currentMonthIndex isEarlyInMonth)
    enrichedData.map (attachLoadBalancing enrichedData currentMonthIndex)

/-- View of a fully enriched record through the fields
`calculateAssignmentScore` reads. -/
def ScoredClinician.toScoreRecord (c : ScoredClinician) : ScoreRecord :=
  { activeCases := c.activeCases
    currentMonth := c.currentMonth
    sixMonthAverage := c.sixMonthAverage
    growthRate := c.growthRate
    burnout := some c.burnout
    loadBalancing := some c.loadBalancing }

/-- The metrics-and-scoring pipeline over one roster: enrich every record,
then score each against the full enriched cohort
(`enrichWithAssignmentMetrics` followed by `calculateAssignmentScore`,
at the default 2-month active-cases window where the caller's scale factor
is 1 and the baseline override coincides with the cohort maximum). -/
def computeScores (cliniciansData : List Clinician) (currentMonthIndex : ℕ)
    (isEarlyInMonth : Bool) : List ℤ :=
  let enriched := enrichWithAssignmentMetrics cliniciansData currentMonthIndex isEarlyInMonth
  let records := enriched.map ScoredClinician.toScoreRecord
  records.map (fun r => calculateAssignmentScore r records none)

/-! ## Spec-side definitions

Definitions transcribed from the specification's words (not from the
source), used to state the refinement claims C1 and C3 against the
embedded code. -/

/-- Plain mean of a list, `0` on the empty list. -/
def listMean (values : List ℚ) : ℚ :=
  if values.isEmpty then 0 else values.sum / (values.length : ℚ)

/-- Spec §4.6 step 1: a cohort maximum "`= max(cohort values, floor 1)`":
the maximum of the cohort values, floored at 1. -/
def specCohortMaxFloor1 (values : List ℚ) : ℚ := max (values.foldr max 0) 1

/-- Spec: `maxActiveCases` is the supplied baseline override when one is
given, otherwise the cohort maximum floored at 1. -/
def specMaxActiveCases (all : List ScoreRecord) (baselineOverride : Option ℚ) : ℚ :=
  baselineOverride.getD (specCohortMaxFloor1 (all.map (·.activeCases)))

/-- Spec: `normalizedGrowth = (growthRate − cohort min)/(cohort max − cohort min)`,
taken as 0 for every clinician when that range is 0. -/
def specNormalizedGrowth (g : ℚ) (all : List ScoreRecord) : ℚ :=
  let mn := listMin (all.map (·.growthRate))
  let mx := listMax (all.map (·.growthRate))
  if mx - mn = 0 then 0 else (g - mn) / (mx - mn)

/-- Spec: `base = 100 × (0.30×activeCases/max + 0.30×currentMonth/max +
0.30×sixMonthAvg/max + 0.10×normalizedGrowth)`. -/
def specBaseScore (r : ScoreRecord) (all : List ScoreRecord)
    (baselineOverride : Option ℚ) : ℚ :=
  100 * (0.30 * (r.activeCases / specMaxActiveCases all baselineOverride) +
    0.30 * (r.currentMonth / specCohortMaxFloor1 (all.map (·.currentMonth))) +
    0.30 * (r.sixMonthAverage / specCohortMaxFloor1 (all.map (·.sixMonthAverage))) +
    0.10 * specNormalizedGrowth r.growthRate all)

/-- Spec: final score = `round(min(100, base + burnoutPenalty +
loadBalancingPenalty))`, a missing detection field contributing 0. -/
def specAssignmentScore (r : ScoreRecord) (all : List ScoreRecord)
    (baselineOverride : Option ℚ) : ℤ :=
  jsRound (min 100 (specBaseScore r all baselineOverride +
    (r.burnout.elim 0 (·.penalty)) + (r.loadBalancing.elim 0 (·.penalty))))

/-- Spec §4.4: burnout baseline = mean of the positive hours from month 0
through the current month inclusive. -/
def specBurnoutBaseline (monthlyHours : List ℚ) (currentMonthIndex : ℕ) : ℚ :=
  listMean ((monthlyHours.take (currentMonthIndex + 1)).filter (fun h => 0 < h))

/-- Spec §4.4: high-load threshold = `min(baseline × 1.25, 45)`. -/
def specHighLoadThreshold (monthlyHours : List ℚ) (currentMonthIndex : ℕ) : ℚ :=
  min (specBurnoutBaseline monthlyHours currentMonthIndex * 1.25) 45

/-- Spec §4.4: scan backward from the current month, counting consecutive
months at or above the threshold, stopping at the first month below it.
`specConsecutiveHighMonths l t (c+1)` scans from month `c`. -/
def specConsecutiveHighMonths (monthlyHours : List ℚ) (threshold : ℚ) : ℕ → ℕ
  | 0 => 0
  | n + 1 =>
    if monthlyHours.getD n 0 < threshold then 0
    else specConsecutiveHighMonths monthlyHours threshold n + 1

/-- Spec §4.4 tier table: 0–1 → none/0, 2 → caution/3, 3 → warning/10,
≥4 → severe/15. -/
def specBurnoutTier : ℕ → String × ℚ
  | 0 => ("none", 0)
  | 1 => ("none", 0)
  | 2 => ("caution", 3)
  | 3 => ("warning", 10)
  | _ + 4 => ("severe", 15)

/-- The historical baseline computed inside `calculateGrowthRate`: the
`safeAverage` of the up-to-6 months strictly before month `m`, or `0`
when the clipped window is empty. -/
def historicalBaseline (monthlyHours : List ℚ) (m : ℤ) : ℚ :=
  let historicalStartIndex := max 0 (m - 6)
  let historicalEndIndex := m
  let safeEndIndex := min historicalEndIndex (monthlyHours.length : ℤ)
  let safeStartIndex := min historicalStartIndex (monthlyHours.length : ℤ)
  if safeEndIndex ≤ safeStartIndex then 0
  else safeAverage
    ((monthlyHours.drop safeStartIndex.toNat).take (safeEndIndex - safeStartIndex).toNat)

/-! ## Concrete rosters used by the testable-property scenarios -/

/-- End-to-end scenario, clinician A: activeCases 20, six months of 50h. -/
def rosterA : Clinician := ⟨"A", "lead", 20, some [50, 50, 50, 50, 50, 50]⟩

/-- End-to-end scenario, clinician B: activeCases 10, six months of 20h. -/
def rosterB : Clinician := ⟨"B", "senior", 10, some [20, 20, 20, 20, 20, 20]⟩

/-- End-to-end scenario, clinician C: activeCases 2, six months of 5h. -/
def rosterC : Clinician := ⟨"C", "junior", 2, some [5, 5, 5, 5, 5, 5]⟩

/-! ## Helper lemmas: folds, rounding, averages -/

theorem le_foldr_max (l : List ℚ) (d : ℚ) : d ≤ l.foldr max d := by
  induction l with
  | nil => exact le_refl d
  | cons x xs ih => exact ih.trans (le_max_right x (xs.foldr max d))

theorem mem_le_foldr_max {x : ℚ} {l : List ℚ} (d : ℚ) (hx : x ∈ l) :
    x ≤ l.foldr max d := by
  induction l with
  | nil => cases hx
  | cons y ys ih =>
    rcases List.mem_cons.mp hx with h | h
    · exact h ▸ le_max_left y (ys.foldr max d)
    · exact (ih h).trans (le_max_right y (ys.foldr max d))

theorem foldr_min_le (l : List ℚ) (d : ℚ) : l.foldr min d ≤ d := by
  induction l with
  | nil => exact le_refl d
  | cons x xs ih => exact (min_le_right x (xs.foldr min d)).trans ih

theorem foldr_min_le_mem {x : ℚ} {l : List ℚ} (d : ℚ) (hx : x ∈ l) :
    l.foldr min d ≤ x := by
  induction l with
  | nil => cases hx
  | cons y ys ih =>
    rcases List.mem_cons.mp hx with h | h
    · exact h ▸ min_le_left y (ys.foldr min d)
    · exact (min_le_right y (ys.foldr min d)).trans (ih h)

theorem one_le_maxOr1 (l : List ℚ) : 1 ≤ maxOr1 l := le_foldr_max l 1

theorem maxOr1_pos (l : List ℚ) : 0 < maxOr1 l :=
  lt_of_lt_of_le one_pos (one_le_maxOr1 l)

theorem mem_le_maxOr1 {x : ℚ} {l : List ℚ} (hx : x ∈ l) : x ≤ maxOr1 l :=
  mem_le_foldr_max 1 hx

theorem mem_le_listMax {x : ℚ} {l : List ℚ} (hx : x ∈ l) : x ≤ listMax l := by
  cases l with
  | nil => cases hx
  | cons y ys =>
    rcases List.mem_cons.mp hx with h | h
    · exact h ▸ le_foldr_max ys y
    · exact mem_le_foldr_max y h

theorem listMin_le_mem {x : ℚ} {l : List ℚ} (hx : x ∈ l) : listMin l ≤ x := by
  cases l with
  | nil => cases hx
  | cons y ys =>
    rcases List.mem_cons.mp hx with h | h
    · exact h ▸ foldr_min_le ys y
    · exact foldr_min_le_mem y h

theorem listMin_le_listMax (l : List ℚ) : listMin l ≤ listMax l := by
  cases l with
  | nil => exact le_refl 0
  | cons y ys =>
    exact (listMin_le_mem (List.mem_cons_self y ys)).trans
      (mem_le_listMax (List.mem_cons_self y ys))

theorem foldr_max_append_cons (l1 l2 : List ℚ) (a d : ℚ) :
    (l1 ++ a :: l2).foldr max d = max a ((l1 ++ l2).foldr max d) := by
  induction l1 with
  | nil => rfl
  | cons x xs ih => simp only [List.cons_append, List.foldr_cons, ih, max_left_comm]

theorem growthRateRange_nonneg (all : List ScoreRecord) : 0 ≤ growthRateRange all := by
  unfold growthRateRange
  exact sub_nonneg.mpr (listMin_le_listMax _)

theorem jsRound_mono {q q' : ℚ} (h : q ≤ q') : jsRound q ≤ jsRound q' :=
  Int.floor_le_floor (by linarith)

theorem jsRound_nonneg {q : ℚ} (h : 0 ≤ q) : 0 ≤ jsRound q :=
  Int.le_floor.mpr (by push_cast; linarith)

theorem jsRound_le_100 {q : ℚ} (h : q ≤ 100) : jsRound q ≤ 100 := by
  have : jsRound q < 101 := Int.floor_lt.mpr (by push_cast; linarith)
  omega

theorem toFixed1_nonneg {q : ℚ} (h : 0 ≤ q) : 0 ≤ toFixed1 q := by
  unfold toFixed1
  have h10 : 0 ≤ jsRound (q * 10) := jsRound_nonneg (by linarith)
  positivity

theorem safeAverage_nonneg (values : List ℚ) : 0 ≤ safeAverage values := by
  unfold safeAverage
  dsimp only
  split
  · exact le_refl 0
  · split
    · exact le_refl 0
    · refine div_nonneg (List.sum_nonneg ?_) (by positivity)
      intro x hx
      have := List.of_mem_filter hx
      simpa using this

theorem getD_nonneg {l : List ℚ} (h : ∀ x ∈ l, 0 ≤ x) (n : ℕ) : 0 ≤ l.getD n 0 := by
  induction l generalizing n with
  | nil => simp [List.getD]
  | cons y ys ih =>
    cases n with
    | zero => simpa using h y (List.mem_cons_self y ys)
    | succ m =>
      simpa using ih (fun x hx => h x (List.mem_cons_of_mem y hx)) m

theorem safeArrayAccess_nonneg {l : List ℚ} (h : ∀ x ∈ l, 0 ≤ x) (i : ℤ) :
    0 ≤ safeArrayAccess l i := by
  unfold safeArrayAccess
  split
  · exact le_refl 0
  · exact getD_nonneg h i.toNat

theorem calculate6MonthAverage_nonneg (l : List ℚ) (c : ℕ) :
    0 ≤ calculate6MonthAverage l c := by
  unfold calculate6MonthAverage
  dsimp only
  split
  · exact le_refl 0
  · exact safeAverage_nonneg _

theorem burnoutTier_penalty_nonneg (n : ℕ) : 0 ≤ (burnoutTier n).2 := by
  unfold burnoutTier
  split
  · norm_num
  · split
    · norm_num
    · split <;> norm_num

theorem lbTier_penalty_nonneg (n : ℕ) : 0 ≤ (lbTier n).2 := by
  unfold lbTier
  split
  · norm_num
  · split
    · norm_num
    · split <;> norm_num

theorem detectBurnout_penalty_nonneg (l : List ℚ) (c : ℕ) :
    0 ≤ (detectBurnout l c).penalty := by
  unfold detectBurnout
  dsimp only
  split
  · norm_num [burnoutNone]
  · split
    · norm_num [burnoutNone]
    · split
      · norm_num [burnoutNone]
      · split
        · norm_num [burnoutNone]
        · exact burnoutTier_penalty_nonneg _

theorem detectLoadBalancing_penalty_nonneg (mh : Option (List ℚ))
    (cohort : List (Option (List ℚ))) (c : ℕ) :
    0 ≤ (detectLoadBalancing mh cohort c).penalty := by
  unfold detectLoadBalancing
  match mh with
  | none => norm_num [lbNone]
  | some l =>
    simp only
    split
    · norm_num [lbNone]
    · split
      · norm_num [lbNone]
      · exact lbTier_penalty_nonneg _

/-! ## Bounds of the score composer -/

theorem normalizedGrowthRate_nonneg {r : ScoreRecord} {all : List ScoreRecord}
    (hr : r ∈ all) : 0 ≤ normalizedGrowthRate r all := by
  unfold normalizedGrowthRate
  split
  · refine div_nonneg (sub_nonneg.mpr ?_) (growthRateRange_nonneg all)
    exact listMin_le_mem (List.mem_map_of_mem (·.growthRate) hr)
  · exact le_refl 0

theorem baseScore_nonneg {r : ScoreRecord} {all : List ScoreRecord}
    {b : Option ℚ} (hr : r ∈ all) (hac : 0 ≤ r.activeCases)
    (hcm : 0 ≤ r.currentMonth) (hsa : 0 ≤ r.sixMonthAverage)
    (hb : ∀ q, b = some q → 0 < q) : 0 ≤ baseScore r all b := by
  have h1 : 0 ≤ normalizedActiveCases r all b := by
    unfold normalizedActiveCases maxActiveCasesOf
    match hbv : b with
    | some q => exact div_nonneg hac (le_of_lt (hb q rfl))
    | none => exact div_nonneg hac (le_of_lt (maxOr1_pos _))
  have h2 : 0 ≤ normalizedCurrentMonth r all :=
    div_nonneg hcm (le_of_lt (maxOr1_pos _))
  have h3 : 0 ≤ normalizedSixMonthAvg r all :=
    div_nonneg hsa (le_of_lt (maxOr1_pos _))
  have h4 : 0 ≤ normalizedGrowthRate r all := normalizedGrowthRate_nonneg hr
  unfold baseScore
  nlinarith

/-- The cap at 100 holds unconditionally. -/
theorem calculateAssignmentScore_le_100 (r : ScoreRecord) (all : List ScoreRecord)
    (b : Option ℚ) : calculateAssignmentScore r all b ≤ 100 :=
  jsRound_le_100 (min_le_right _ 100)

theorem calculateAssignmentScore_nonneg {r : ScoreRecord} {all : List ScoreRecord}
    {b : Option ℚ} (hr : r ∈ all) (hac : 0 ≤ r.activeCases)
    (hcm : 0 ≤ r.currentMonth) (hsa : 0 ≤ r.sixMonthAverage)
    (hbp : 0 ≤ burnoutPenaltyOf r) (hlp : 0 ≤ loadBalancingPenaltyOf r)
    (hb : ∀ q, b = some q → 0 < q) : 0 ≤ calculateAssignmentScore r all b := by
  have hbase := baseScore_nonneg hr hac hcm hsa hb
  exact jsRound_nonneg (le_min (by linarith) (by norm_num))

/-! ## Field lemmas of the enrichment passes -/

theorem enrichClinician_activeCases (c : ℕ) (e : Bool) (cl : Clinician) :
    (enrichClinician c e cl).activeCases = cl.activeCases := by
  unfold enrichClinician
  match cl.monthlyHours2025 with
  | none => rfl
  | some l => rfl

theorem enrichClinician_monthlyHours (c : ℕ) (e : Bool) (cl : Clinician) :
    (enrichClinician c e cl).monthlyHours2025 = cl.monthlyHours2025 := by
  unfold enrichClinician
  match cl.monthlyHours2025 with
  | none => rfl
  | some l => rfl

theorem enrichClinician_currentMonth_nonneg (c : ℕ) (e : Bool) (cl : Clinician)
    (hwf : ∀ l, cl.monthlyHours2025 = some l → ∀ x ∈ l, 0 ≤ x) :
    0 ≤ (enrichClinician c e cl).currentMonth := by
  unfold enrichClinician
  match hm : cl.monthlyHours2025 with
  | none => exact le_refl 0
  | some l =>
    have hl := hwf l hm
    dsimp only
    split
    · exact toFixed1_nonneg (safeArrayAccess_nonneg hl _)
    · exact toFixed1_nonneg (safeArrayAccess_nonneg hl _)

theorem enrichClinician_sixMonthAverage_nonneg (c : ℕ) (e : Bool) (cl : Clinician) :
    0 ≤ (enrichClinician c e cl).sixMonthAverage := by
  unfold enrichClinician
  match cl.monthlyHours2025 with
  | none => exact le_refl 0
  | some l => exact toFixed1_nonneg (calculate6MonthAverage_nonneg l c)

theorem enrichClinician_burnout_penalty_nonneg (c : ℕ) (e : Bool) (cl : Clinician) :
    0 ≤ (enrichClinician c e cl).burnout.penalty := by
  unfold enrichClinician
  match cl.monthlyHours2025 with
  | none => exact le_refl 0
  | some l => exact detectBurnout_penalty_nonneg l c

/-- The `sixMonthAverage` an enriched record carries: `0` without an hours
array, and the rounded trailing 6-month mean at the actual current month
index otherwise — in particular it does not depend on the early-month
flag. -/
theorem enrichClinician_sixMonthAverage (c : ℕ) (e : Bool) (cl : Clinician) :
    (enrichClinician c e cl).sixMonthAverage =
      match cl.monthlyHours2025 with
      | none => 0
      | some l => toFixed1 (calculate6MonthAverage l c) := by
  unfold enrichClinician
  match cl.monthlyHours2025 with
  | none => rfl
  | some l => rfl

theorem attachLoadBalancing_toEnriched (cohort : List EnrichedClinician) (c : ℕ)
    (cl : EnrichedClinician) :
    (attachLoadBalancing cohort c cl).toEnrichedClinician = cl := rfl

/-! ## Claim C1: the score composer matches the spec formula -/

theorem specCohortMaxFloor1_eq (l : List ℚ) : specCohortMaxFloor1 l = maxOr1 l := by
  unfold specCohortMaxFloor1 maxOr1
  induction l with
  | nil => norm_num
  | cons x xs ih => simp only [List.foldr_cons]; rw [max_assoc, ih]

theorem baseScore_eq_specBaseScore (r : ScoreRecord) (all : List ScoreRecord)
    (b : Option ℚ) : baseScore r all b = specBaseScore r all b := by
  have hAC : maxActiveCasesOf all b = specMaxActiveCases all b := by
    unfold maxActiveCasesOf specMaxActiveCases
    match b with
    | some q => rfl
    | none => rw [Option.getD_none, specCohortMaxFloor1_eq]
  have hG : normalizedGrowthRate r all = specNormalizedGrowth r.growthRate all := by
    unfold normalizedGrowthRate specNormalizedGrowth growthRateRange
    have hrange := growthRateRange_nonneg all
    unfold growthRateRange at hrange
    rcases eq_or_lt_of_le hrange with h | h
    · rw [if_neg (by rw [← h]; exact lt_irrefl 0), if_pos h.symm]
    · rw [if_pos h, if_neg (ne_of_gt h)]
  unfold baseScore specBaseScore normalizedActiveCases normalizedCurrentMonth
    normalizedSixMonthAvg
  rw [hAC, hG, specCohortMaxFloor1_eq, specCohortMaxFloor1_eq]
  unfold specMaxActiveCases
  ring

/-- C1: for every clinician record and every cohort,
`calculateAssignmentScore` returns
`round(min(100, base + burnoutPenalty + loadBalancingPenalty))` with
`base = 100 × (0.30·activeCases/maxActiveCases + 0.30·currentMonth/maxCurrentMonth
+ 0.30·sixMonthAverage/maxSixMonthAvg + 0.10·normalizedGrowth)`, the three
maxima being the cohort maxima floored at 1 (`maxActiveCases` replaced by
the supplied baseline override when given), and `normalizedGrowth` the
min–max normalization that is 0 for everyone when the cohort growth range
is 0. -/
theorem spec_C1 (r : ScoreRecord) (all : List ScoreRecord) (b : Option ℚ) :
    calculateAssignmentScore r all b = specAssignmentScore r all b := by
  unfold calculateAssignmentScore specAssignmentScore
  rw [min_comm]
  have hbp : burnoutPenaltyOf r = r.burnout.elim 0 (·.penalty) := by
    cases hr : r.burnout <;> simp [burnoutPenaltyOf, hr]
  have hlp : loadBalancingPenaltyOf r = r.loadBalancing.elim 0 (·.penalty) := by
    cases hr : r.loadBalancing <;> simp [loadBalancingPenaltyOf, hr]
  rw [baseScore_eq_specBaseScore, hbp, hlp]

/-! ## Claim C2: final scores are integers in [0, 100] -/

theorem mem_enrich {sc : ScoredClinician} {data : List Clinician} {c : ℕ} {e : Bool}
    (h : sc ∈ enrichWithAssignmentMetrics data c e) :
    ∃ d ∈ data,
      sc = attachLoadBalancing (data.map (enrichClinician c e)) c (enrichClinician c e d) := by
  unfold enrichWithAssignmentMetrics at h
  split at h
  · cases h
  · obtain ⟨en, hen, rfl⟩ := List.mem_map.mp h
    obtain ⟨d, hd, rfl⟩ := List.mem_map.mp hen
    exact ⟨d, hd, rfl⟩

/-- C2: for every cohort of well-formed clinician records (all monthly
hours ≥ 0, activeCases ≥ 0), every final assignment score the pipeline
produces satisfies 0 ≤ score ≤ 100 (scores are integers by construction:
the composer returns `ℤ`). -/
theorem spec_C2 (data : List Clinician) (c : ℕ) (e : Bool)
    (hwf : ∀ cl ∈ data, 0 ≤ cl.activeCases ∧
      ∀ l, cl.monthlyHours2025 = some l → ∀ x ∈ l, 0 ≤ x) :
    ∀ s ∈ computeScores data c e, 0 ≤ s ∧ s ≤ 100 := by
  intro s hs
  unfold computeScores at hs
  obtain ⟨r, hr, rfl⟩ := List.mem_map.mp hs
  refine ⟨?_, calculateAssignmentScore_le_100 _ _ _⟩
  obtain ⟨sc, hsc, rfl⟩ := List.mem_map.mp hr
  obtain ⟨d, hd, rfl⟩ := mem_enrich hsc
  have hmem : (attachLoadBalancing (data.map (enrichClinician c e)) c
      (enrichClinician c e d)).toScoreRecord ∈
      (enrichWithAssignmentMetrics data c e).map ScoredClinician.toScoreRecord :=
    List.mem_map_of_mem ScoredClinician.toScoreRecord hsc
  refine calculateAssignmentScore_nonneg hmem ?_ ?_ ?_ ?_ ?_ (fun q hq => by cases hq)
  · show 0 ≤ (enrichClinician c e d).activeCases
    rw [enrichClinician_activeCases]
    exact (hwf d hd).1
  · exact enrichClinician_currentMonth_nonneg c e d (hwf d hd).2
  · exact enrichClinician_sixMonthAverage_nonneg c e d
  · show 0 ≤ (enrichClinician c e d).burnout.penalty
    exact enrichClinician_burnout_penalty_nonneg c e d
  · show 0 ≤ (detectLoadBalancing _ _ _).penalty
    exact detectLoadBalancing_penalty_nonneg _ _ _

/-- Witness for C2 at a concrete well-formed roster. -/
theorem spec_C2_witness :
    (0 : ℤ) ≤ 94 ∧
    (94 : ℤ) ∈ computeScores [⟨"P", "junior", 8, some [12, 30, 25]⟩,
      ⟨"Q", "senior", 4, some [6, 10, 12]⟩, ⟨"R", "lead", 0, none⟩] 2 false ∧
    ∀ s ∈ computeScores [⟨"P", "junior", 8, some [12, 30, 25]⟩,
      ⟨"Q", "senior", 4, some [6, 10, 12]⟩, ⟨"R", "lead", 0, none⟩] 2 false,
      0 ≤ s ∧ s ≤ 100 := by
  refine ⟨by norm_num, by with_unfolding_all decide, ?_⟩
  refine spec_C2 _ 2 false ?_
  intro cl hcl
  fin_cases hcl <;>
    exact ⟨by norm_num, fun l hl => by cases hl <;> intro x hx <;> fin_cases hx <;> norm_num⟩

/-! ## Claim C3: the burnout detector matches the spec description -/

theorem safeAverage_eq_listMean_of_pos {xs : List ℚ} (h : ∀ x ∈ xs, 0 < x) :
    safeAverage xs = listMean xs := by
  unfold safeAverage listMean
  cases xs with
  | nil => rfl
  | cons y ys =>
    have hfil : (y :: ys).filter (fun v => 0 ≤ v) = y :: ys :=
      List.filter_eq_self.mpr (fun a ha => by simpa using le_of_lt (h a ha))
    simp only [List.isEmpty_cons, hfil, if_false, Bool.false_eq_true]

theorem burnoutScan_eq_spec (l : List ℚ) (t : ℚ) (n : ℕ) :
    burnoutScan l t n = specConsecutiveHighMonths l t n := by
  induction n with
  | zero => rfl
  | succ m ih =>
    unfold burnoutScan specConsecutiveHighMonths
    rcases le_or_lt t (l.getD m 0) with h | h
    · rw [if_pos h, if_neg (not_lt.mpr h), ih]
    · rw [if_neg (not_le.mpr h), if_pos h]

theorem burnoutTier_eq_spec (n : ℕ) : burnoutTier n = specBurnoutTier n := by
  match n with
  | 0 => rfl
  | 1 => rfl
  | 2 => rfl
  | 3 => rfl
  | m + 4 =>
    show burnoutTier (m + 4) = ("severe", 15)
    unfold burnoutTier
    rw [if_pos (by omega)]

/-- C3: for a clinician with current month index ≥ 2 (inside the data) whose
baseline — the mean of the positive hours from month 0 through the current
month — is positive, `detectBurnout` uses the threshold
`min(baseline × 1.25, 45)`, counts consecutive months ≥ threshold scanning
backward from the current month, stopping at the first month below it, and
maps the count through the 0–1/2/3/≥4 → none/caution/warning/severe tier
table. -/
theorem spec_C3 (l : List ℚ) (c : ℕ) (h2 : 2 ≤ c) (hlen : c < l.length)
    (hpos : 0 < specBurnoutBaseline l c) :
    detectBurnout l c =
      { consecutiveHighMonths :=
          specConsecutiveHighMonths l (specHighLoadThreshold l c) (c + 1)
        burnoutLevel :=
          (specBurnoutTier
            (specConsecutiveHighMonths l (specHighLoadThreshold l c) (c + 1))).1
        penalty :=
          (specBurnoutTier
            (specConsecutiveHighMonths l (specHighLoadThreshold l c) (c + 1))).2
        threshold := (jsRound (specHighLoadThreshold l c * 10) : ℚ) / 10 } := by
  unfold detectBurnout
  rw [if_neg (not_le.mpr hlen), if_neg (not_lt.mpr h2)]
  dsimp only
  rw [min_eq_left (by omega : c + 1 ≤ l.length)]
  have hposall : ∀ x ∈ (l.take (c + 1)).filter (fun h => 0 < h), 0 < x := by
    intro x hx
    have := List.of_mem_filter hx
    simpa using this
  have havg : safeAverage ((l.take (c + 1)).filter (fun h => 0 < h)) =
      specBurnoutBaseline l c := by
    rw [safeAverage_eq_listMean_of_pos hposall]; rfl
  have hne : ¬((l.take (c + 1)).filter (fun h => 0 < h)).isEmpty = true := by
    intro he
    rw [List.isEmpty_iff] at he
    have : specBurnoutBaseline l c = 0 := by
      unfold specBurnoutBaseline
      rw [he]; rfl
    exact absurd this (ne_of_gt hpos)
  rw [if_neg hne, havg, if_neg (ne_of_gt hpos)]
  rw [burnoutScan_eq_spec, burnoutTier_eq_spec]
  rfl

/-- Witness for C3: the spec's worked example
hours `[10,10,10,20,20]`, current month index 4 — baseline 14,
threshold 17.5, two consecutive high months, tier caution, penalty 3. -/
theorem spec_C3_witness :
    2 ≤ 4 ∧ (4 : ℕ) < ([10, 10, 10, 20, 20] : List ℚ).length ∧
    0 < specBurnoutBaseline [10, 10, 10, 20, 20] 4 ∧
    detectBurnout [10, 10, 10, 20, 20] 4 = ⟨2, "caution", 3, 17.5⟩ := by
  refine ⟨by norm_num, by norm_num, by with_unfolding_all decide, ?_⟩
  rw [spec_C3 [10, 10, 10, 20, 20] 4 (by norm_num) (by norm_num)
    (by with_unfolding_all decide)]
  with_unfolding_all decide

/-! ## Claim C4: the load-balancing cohort-size and variance guards -/

theorem lbScan_stop {l : List ℚ} {cohort : List (Option (List ℚ))} {n : ℕ}
    (h : (monthPopulation cohort n).length < 3 ∨
      (calculateStats (monthPopulation cohort n)).2 = 0) :
    lbScan l cohort (n + 1) = 0 := by
  unfold lbScan
  dsimp only
  by_cases h3 : (monthPopulation cohort n).length < 3
  · rw [if_pos h3]
  · rw [if_neg h3, if_pos (h.resolve_left h3)]

/-- C4: with only 2 clinicians holding positive hours in the current month,
load-balancing detection yields consecutive count 0, tier "none", penalty 0
for every clinician, whatever their individual hours; and, in general, a
month whose positive-hours population has fewer than 3 members or whose
standard deviation is exactly 0 stops the backward scan with nothing
counted at or before that month. -/
theorem spec_C4 :
    (∀ (mh : Option (List ℚ)) (cohort : List (Option (List ℚ))) (c : ℕ),
      (monthPopulation cohort c).length = 2 →
      detectLoadBalancing mh cohort c = ⟨0, "none", 0⟩) ∧
    (∀ (l : List ℚ) (cohort : List (Option (List ℚ))) (n : ℕ),
      (monthPopulation cohort n).length < 3 ∨
        (calculateStats (monthPopulation cohort n)).2 = 0 →
      lbScan l cohort (n + 1) = 0) := by
  constructor
  · intro mh cohort c h2
    match mh with
    | none => rfl
    | some l =>
      unfold detectLoadBalancing
      dsimp only
      split
      · rfl
      · split
        · rfl
        · rw [lbScan_stop (Or.inl (by omega))]; rfl
  · intro l cohort n h
    exact lbScan_stop h

/-- Witness for C4: a cohort whose current-month positive-hours population
has exactly 2 members; the probed clinician has hours far above everyone
else, yet gets tier "none", penalty 0. -/
theorem spec_C4_witness :
    (monthPopulation [some [10, 20], some [10, 30], some [10, 0]] 1).length = 2 ∧
    detectLoadBalancing (some [10, 100]) [some [10, 20], some [10, 30], some [10, 0]] 1 =
      ⟨0, "none", 0⟩ := by
  refine ⟨by with_unfolding_all decide, ?_⟩
  exact spec_C4.1 _ _ _ (by with_unfolding_all decide)

/-! ## Claim C5: the end-to-end three-clinician scenario -/

/-- C5: on the roster A(20 cases, 50h×6), B(10, 20h×6), C(2, 5h×6) at
current month index 5 without the early-month fallback, A's burnout is
severe with penalty 15 (threshold `min(62.5, 45) = 45`, six months at 50),
the scores come out as `[100, 39, 9]`, and the ascending ranking by final
score is C < B < A with A worst. -/
theorem spec_C5 :
    (enrichWithAssignmentMetrics [rosterA, rosterB, rosterC] 5 false).map
      (fun cl => (cl.burnout.burnoutLevel, cl.burnout.penalty)) =
      [("severe", 15), ("none", 0), ("none", 0)] ∧
    computeScores [rosterA, rosterB, rosterC] 5 false = [100, 39, 9] ∧
    (computeScores [rosterA, rosterB, rosterC] 5 false).getD 2 0 <
      (computeScores [rosterA, rosterB, rosterC] 5 false).getD 1 0 ∧
    (computeScores [rosterA, rosterB, rosterC] 5 false).getD 1 0 <
      (computeScores [rosterA, rosterB, rosterC] 5 false).getD 0 0 := by
  with_unfolding_all decide

/-! ## Claim C6: growth-rate fallback laws at zero baseline -/

/-- C6: whenever the historical baseline (mean of the up-to-6 months
strictly before the effective month) is 0, `calculateGrowthRate` returns
100 if the value at the effective month is positive and 0 otherwise. -/
theorem spec_C6 (l : List ℚ) (currentMonthIndex : ℤ) (eff : Option ℤ)
    (h0 : historicalBaseline l (eff.getD currentMonthIndex) = 0) :
    calculateGrowthRate l currentMonthIndex eff =
      if 0 < safeArrayAccess l (eff.getD currentMonthIndex) then 100 else 0 := by
  unfold calculateGrowthRate
  unfold historicalBaseline at h0
  dsimp only at h0 ⊢
  split
  · rfl
  · rename_i hns
    rw [if_neg hns] at h0
    rw [if_pos h0]

/-- Witness for C6: all-zero history with a nonzero effective month gives
growth rate 100; all-zero history with a zero effective month gives 0. -/
theorem spec_C6_witness :
    historicalBaseline [0, 0, 0, 7] (Option.getD none 3) = 0 ∧
    calculateGrowthRate [0, 0, 0, 7] 3 none = 100 ∧
    historicalBaseline [0, 0, 0, 0] (Option.getD none 3) = 0 ∧
    calculateGrowthRate [0, 0, 0, 0] 3 none = 0 := by
  refine ⟨by with_unfolding_all decide, ?_, by with_unfolding_all decide, ?_⟩
  · rw [spec_C6 [0, 0, 0, 7] 3 none (by with_unfolding_all decide)]
    with_unfolding_all decide
  · rw [spec_C6 [0, 0, 0, 0] 3 none (by with_unfolding_all decide)]
    with_unfolding_all decide

/-! ## Claim C7: monotonicity in a clinician's own activeCases -/

theorem div_le_div_right_of_pos {a b q : ℚ} (h : a ≤ b) (hq : 0 < q) :
    a / q ≤ b / q := by
  rw [div_eq_mul_inv, div_eq_mul_inv]
  exact mul_le_mul_of_nonneg_right h (inv_nonneg.mpr hq.le)

theorem div_maxOr1_mono {M a b : ℚ} (hM : 1 ≤ M) (hab : a ≤ b) :
    a / max a M ≤ b / max b M := by
  have hM0 : 0 < M := lt_of_lt_of_le one_pos hM
  rcases le_or_lt b M with hbM | hbM
  · rw [max_eq_right (hab.trans hbM), max_eq_right hbM]
    exact div_le_div_right_of_pos hab hM0
  · rw [max_eq_left hbM.le]
    have hb0 : 0 < b := lt_trans hM0 hbM
    rw [div_self (ne_of_gt hb0)]
    have h0 : 0 < max a M := lt_of_lt_of_le hM0 (le_max_right a M)
    exact (div_le_one h0).mpr (le_max_left a M)

theorem maxOr1_map_insert (f : ScoreRecord → ℚ) (pre post : List ScoreRecord)
    (x : ScoreRecord) :
    maxOr1 ((pre ++ x :: post).map f) = max (f x) (maxOr1 ((pre ++ post).map f)) := by
  unfold maxOr1
  rw [List.map_append, List.map_cons, foldr_max_append_cons, ← List.map_append]

/-- Monotonicity of the composer in one member's `activeCases`, all other
fields of that member and the rest of the cohort held fixed. -/
theorem score_mono_in_activeCases (pre post : List ScoreRecord)
    (r1 r2 : ScoreRecord) (b : Option ℚ)
    (hac : r1.activeCases ≤ r2.activeCases)
    (hcm : r1.currentMonth = r2.currentMonth)
    (hsa : r1.sixMonthAverage = r2.sixMonthAverage)
    (hgr : r1.growthRate = r2.growthRate)
    (hbo : r1.burnout = r2.burnout)
    (hlb : r1.loadBalancing = r2.loadBalancing)
    (hb : ∀ q, b = some q → 0 < q) :
    normalizedActiveCases r1 (pre ++ r1 :: post) b ≤
      normalizedActiveCases r2 (pre ++ r2 :: post) b ∧
    calculateAssignmentScore r1 (pre ++ r1 :: post) b ≤
      calculateAssignmentScore r2 (pre ++ r2 :: post) b := by
  have hmap : ∀ f : ScoreRecord → ℚ, f r1 = f r2 →
      (pre ++ r1 :: post).map f = (pre ++ r2 :: post).map f := by
    intro f hf
    simp only [List.map_append, List.map_cons, hf]
  have hnac : normalizedActiveCases r1 (pre ++ r1 :: post) b ≤
      normalizedActiveCases r2 (pre ++ r2 :: post) b := by
    unfold normalizedActiveCases maxActiveCasesOf
    match b with
    | some q => exact div_le_div_right_of_pos hac (hb q rfl)
    | none =>
      rw [maxOr1_map_insert, maxOr1_map_insert]
      exact div_maxOr1_mono (one_le_maxOr1 _) hac
  refine ⟨hnac, ?_⟩
  have hcm2 : normalizedCurrentMonth r1 (pre ++ r1 :: post) =
      normalizedCurrentMonth r2 (pre ++ r2 :: post) := by
    unfold normalizedCurrentMonth
    rw [hmap (·.currentMonth) hcm, hcm]
  have hsa2 : normalizedSixMonthAvg r1 (pre ++ r1 :: post) =
      normalizedSixMonthAvg r2 (pre ++ r2 :: post) := by
    unfold normalizedSixMonthAvg
    rw [hmap (·.sixMonthAverage) hsa, hsa]
  have hgr2 : normalizedGrowthRate r1 (pre ++ r1 :: post) =
      normalizedGrowthRate r2 (pre ++ r2 :: post) := by
    unfold normalizedGrowthRate growthRateRange
    rw [hmap (·.growthRate) hgr, hgr]
  have hbase : baseScore r1 (pre ++ r1 :: post) b ≤ baseScore r2 (pre ++ r2 :: post) b := by
    unfold baseScore
    rw [hcm2, hsa2, hgr2]
    linarith
  have hbp : burnoutPenaltyOf r1 = burnoutPenaltyOf r2 := by
    unfold burnoutPenaltyOf
    rw [hbo]
  have hlp : loadBalancingPenaltyOf r1 = loadBalancingPenaltyOf r2 := by
    unfold loadBalancingPenaltyOf
    rw [hlb]
  unfold calculateAssignmentScore
  exact jsRound_mono (min_le_min (by linarith) (le_refl 100))

/-- C7: holding every other clinician fixed (and the baseline override, if
any, fixed and positive), raising one clinician's `activeCases` never
decreases that clinician's own normalized active-cases term, nor their own
final score. -/
theorem spec_C7 (pre post : List ScoreRecord) (r : ScoreRecord) (a a' : ℚ)
    (b : Option ℚ) (hab : a ≤ a') (hb : ∀ q, b = some q → 0 < q) :
    normalizedActiveCases {r with activeCases := a}
        (pre ++ {r with activeCases := a} :: post) b ≤
      normalizedActiveCases {r with activeCases := a'}
        (pre ++ {r with activeCases := a'} :: post) b ∧
    calculateAssignmentScore {r with activeCases := a}
        (pre ++ {r with activeCases := a} :: post) b ≤
      calculateAssignmentScore {r with activeCases := a'}
        (pre ++ {r with activeCases := a'} :: post) b :=
  score_mono_in_activeCases pre post _ _ b hab rfl rfl rfl rfl rfl hb

/-- Witness for C7: raising the single clinician's activeCases from 4 to 9
raises the normalized term from 4/9 to 1 and the score accordingly. -/
theorem spec_C7_witness :
    (4 : ℚ) ≤ 9 ∧
    (normalizedActiveCases ⟨4, 10, 10, 0, none, none⟩
        ([] ++ (⟨4, 10, 10, 0, none, none⟩ : ScoreRecord) :: []) none ≤
      normalizedActiveCases ⟨9, 10, 10, 0, none, none⟩
        ([] ++ (⟨9, 10, 10, 0, none, none⟩ : ScoreRecord) :: []) none) ∧
    (calculateAssignmentScore ⟨4, 10, 10, 0, none, none⟩
        ([] ++ (⟨4, 10, 10, 0, none, none⟩ : ScoreRecord) :: []) none ≤
      calculateAssignmentScore ⟨9, 10, 10, 0, none, none⟩
        ([] ++ (⟨9, 10, 10, 0, none, none⟩ : ScoreRecord) :: []) none) := by
  refine ⟨by norm_num, ?_⟩
  exact spec_C7 [] [] ⟨4, 10, 10, 0, none, none⟩ 4 9 none (by norm_num)
    (fun q hq => by cases hq)

/-! ## Claim C8: the fallback never touches the six-month average -/

/-- C8: the `sixMonthAverage` each record carries is identical whether the
early-month fallback is active or not, and for a record with an hours
array it is always the (rounded) trailing six-month mean taken at the
actual current month index. -/
theorem spec_C8 :
    (∀ (data : List Clinician) (c : ℕ),
      (enrichWithAssignmentMetrics data c true).map (·.sixMonthAverage) =
        (enrichWithAssignmentMetrics data c false).map (·.sixMonthAverage)) ∧
    (∀ (c : ℕ) (e : Bool) (cl : Clinician) (l : List ℚ),
      cl.monthlyHours2025 = some l →
      (enrichClinician c e cl).sixMonthAverage = toFixed1 (calculate6MonthAverage l c)) := by
  constructor
  · intro data c
    unfold enrichWithAssignmentMetrics
    by_cases hd : data.isEmpty
    · rw [if_pos hd, if_pos hd]
    · rw [if_neg hd, if_neg hd]
      simp only [List.map_map]
      refine List.map_congr_left (fun cl _ => ?_)
      show (enrichClinician c true cl).sixMonthAverage =
        (enrichClinician c false cl).sixMonthAverage
      rw [enrichClinician_sixMonthAverage, enrichClinician_sixMonthAverage]
  · intro c e cl l h
    rw [enrichClinician_sixMonthAverage, h]

/-- Witness for C8's conditional part at a concrete record. -/
theorem spec_C8_witness :
    (⟨"W", "junior", 1, some [1, 2, 3]⟩ : Clinician).monthlyHours2025 = some [1, 2, 3] ∧
    (enrichClinician 2 true ⟨"W", "junior", 1, some [1, 2, 3]⟩).sixMonthAverage =
      toFixed1 (calculate6MonthAverage [1, 2, 3] 2) :=
  ⟨rfl, spec_C8.2 2 true ⟨"W", "junior", 1, some [1, 2, 3]⟩ [1, 2, 3] rfl⟩

/-! ## Claim C9: per-record failure does not drop records -/

theorem enrichClinician_of_none {c : ℕ} {e : Bool} {cl : Clinician}
    (h : cl.monthlyHours2025 = none) :
    enrichClinician c e cl =
      { name := cl.name, level := cl.level, activeCases := cl.activeCases
        monthlyHours2025 := none, currentMonth := 0, sixMonthAverage := 0
        growthRate := 0, burnout := neutralBurnout
        usingPreviousMonthFallback := false } := by
  unfold enrichClinician
  rw [h]

/-- C9: `enrichWithAssignmentMetrics` emits exactly one output record per
input record; each output is its input enriched against the cohort, and an
input whose hours field is not an array comes out with currentMonth,
sixMonthAverage, growthRate all 0 and a burnout result of tier "none" with
penalty 0. -/
theorem spec_C9 (data : List Clinician) (c : ℕ) (e : Bool) (d₀ : ScoredClinician) :
    (enrichWithAssignmentMetrics data c e).length = data.length ∧
    ∀ (i : ℕ) (hi : i < data.length),
      (enrichWithAssignmentMetrics data c e).getD i d₀ =
        attachLoadBalancing (data.map (enrichClinician c e)) c
          (enrichClinician c e (data.get ⟨i, hi⟩)) ∧
      ((data.get ⟨i, hi⟩).monthlyHours2025 = none →
        ((enrichWithAssignmentMetrics data c e).getD i d₀).currentMonth = 0 ∧
        ((enrichWithAssignmentMetrics data c e).getD i d₀).sixMonthAverage = 0 ∧
        ((enrichWithAssignmentMetrics data c e).getD i d₀).growthRate = 0 ∧
        ((enrichWithAssignmentMetrics data c e).getD i d₀).burnout.burnoutLevel = "none" ∧
        ((enrichWithAssignmentMetrics data c e).getD i d₀).burnout.penalty = 0) := by
  constructor
  · unfold enrichWithAssignmentMetrics
    split
    · rename_i h
      rw [List.isEmpty_iff] at h
      rw [h]
      rfl
    · simp [List.length_map]
  · intro i hi
    have hne : ¬data.isEmpty = true := by
      rw [List.isEmpty_iff]
      intro h
      rw [h] at hi
      exact absurd hi (by simp)
    have hget : (enrichWithAssignmentMetrics data c e).getD i d₀ =
        attachLoadBalancing (data.map (enrichClinician c e)) c
          (enrichClinician c e (data.get ⟨i, hi⟩)) := by
      unfold enrichWithAssignmentMetrics
      rw [if_neg hne]
      rw [List.getD_eq_getElem?_getD, List.getElem?_map, List.getElem?_map,
        List.getElem?_eq_getElem (by simpa using hi)]
      rfl
    refine ⟨hget, fun hnone => ?_⟩
    rw [hget, enrichClinician_of_none hnone]
    exact ⟨rfl, rfl, rfl, rfl, rfl⟩

/-- Witness for C9: a two-record roster whose first record has no hours
array still yields two outputs, the first one neutral. -/
theorem spec_C9_witness :
    (enrichWithAssignmentMetrics [⟨"X", "junior", 3, none⟩,
      ⟨"Y", "senior", 4, some [1, 2, 3]⟩] 2 false).length = 2 ∧
    ((enrichWithAssignmentMetrics [⟨"X", "junior", 3, none⟩,
      ⟨"Y", "senior", 4, some [1, 2, 3]⟩] 2 false).getD 0
        (attachLoadBalancing [] 0 (enrichClinician 0 false ⟨"Z", "lead", 0, none⟩))).currentMonth = 0 ∧
    ((enrichWithAssignmentMetrics [⟨"X", "junior", 3, none⟩,
      ⟨"Y", "senior", 4, some [1, 2, 3]⟩] 2 false).getD 0
        (attachLoadBalancing [] 0 (enrichClinician 0 false ⟨"Z", "lead", 0, none⟩))).burnout.penalty = 0 := by
  have h := spec_C9 [⟨"X", "junior", 3, none⟩, ⟨"Y", "senior", 4, some [1, 2, 3]⟩] 2 false
    (attachLoadBalancing [] 0 (enrichClinician 0 false ⟨"Z", "lead", 0, none⟩))
  have h0 := (h.2 0 (by norm_num)).2 rfl
  exact ⟨h.1, h0.1, h0.2.2.2.2⟩

/-! ## Claim C10: missing detection fields contribute zero penalty -/

/-- C10: `calculateAssignmentScore` treats an absent `burnout` or
`loadBalancing` field as penalty 0, so a record with neither field scores
exactly the rounded, 100-capped weighted base score. -/
theorem spec_C10 :
    (∀ r : ScoreRecord, r.burnout = none → burnoutPenaltyOf r = 0) ∧
    (∀ r : ScoreRecord, r.loadBalancing = none → loadBalancingPenaltyOf r = 0) ∧
    (∀ (ac cm sa gr : ℚ) (all : List ScoreRecord) (b : Option ℚ),
      calculateAssignmentScore ⟨ac, cm, sa, gr, none, none⟩ all b =
        jsRound (min (baseScore ⟨ac, cm, sa, gr, none, none⟩ all b) 100)) := by
  refine ⟨?_, ?_, ?_⟩
  · intro r h
    unfold burnoutPenaltyOf
    rw [h]
  · intro r h
    unfold loadBalancingPenaltyOf
    rw [h]
  · intro ac cm sa gr all b
    unfold calculateAssignmentScore burnoutPenaltyOf loadBalancingPenaltyOf
    norm_num

/-- Witness for C10 at a concrete record and cohort. -/
theorem spec_C10_witness :
    (⟨3, 4, 5, 6, none, none⟩ : ScoreRecord).burnout = none ∧
    burnoutPenaltyOf ⟨3, 4, 5, 6, none, none⟩ = 0 ∧
    loadBalancingPenaltyOf ⟨3, 4, 5, 6, none, none⟩ = 0 ∧
    calculateAssignmentScore ⟨3, 4, 5, 6, none, none⟩ [⟨3, 4, 5, 6, none, none⟩] none =
      jsRound (min (baseScore ⟨3, 4, 5, 6, none, none⟩ [⟨3, 4, 5, 6, none, none⟩] none) 100) :=
  ⟨rfl, spec_C10.1 _ rfl, spec_C10.2.1 _ rfl, spec_C10.2.2 3 4 5 6 _ none⟩

end AssignToSwee
